import Mathlib

/-!
Verification of the jp-edge-tts synthesis pipeline.

Shallow embedding of the C++ sources. Conventions used throughout:

* C++ `float`/`double` values are modelled as `ℚ` (the claims under
  scrutiny never depend on rounding of binary floating point; all
  arithmetic on the relevant paths is exact on the inputs considered).
* `std::vector<float>` becomes `List ℚ`; `std::u32string` (sequences of
  UTF-32 code points) becomes `List Nat`.
* `std::unordered_map` becomes an association list whose well-formed
  states have pairwise distinct keys.
* Wall-clock time stamps and latency statistics are not modelled: none
  of the claims depends on them.
* Fallible C++ code that returns a status does so here as well; code
  that throws is modelled by an explicit outcome argument where the
  exception originates outside the embedded code (the ONNX runtime).
-/

namespace JpEdgeTts

/-- `Status` enumeration from `types.h` (part_006, lines 18-30),
constructor for constructor.  Note that the enumeration contains no
voice-not-found member and no cancelled member. -/
inductive Status where
  | OK
  | ERROR_INVALID_INPUT
  | ERROR_MODEL_NOT_LOADED
  | ERROR_INFERENCE_FAILED
  | ERROR_MEMORY_ALLOCATION
  | ERROR_FILE_NOT_FOUND
  | ERROR_UNSUPPORTED_FORMAT
  | ERROR_CACHE_MISS
  | ERROR_TIMEOUT
  | ERROR_NOT_INITIALIZED
  | ERROR_UNKNOWN
  deriving DecidableEq, Repr

/-- `VoiceGender` from `types.h`. -/
inductive VoiceGender where
  | MALE
  | FEMALE
  | NEUTRAL
  deriving DecidableEq, Repr

/-- `Voice` from `types.h` (fields used by the synthesis pipeline). -/
structure Voice where
  id : String
  name : String
  gender : VoiceGender := .NEUTRAL
  language : String := "ja"
  style_vector : List ℚ
  default_speed : ℚ := 1
  default_pitch : ℚ := 1
  description : Option String := none
  preview_url : Option String := none
  deriving DecidableEq, Repr

/-- `TTSRequest` from `types.h` (the fields read by the synthesis
path; `format`, `priority` and `vocabulary_id` are never read by the
orchestrator and are omitted). -/
structure TTSRequest where
  text : String
  voice_id : String
  speed : ℚ := 1
  pitch : ℚ := 1
  volume : ℚ := 1
  ipa_phonemes : Option String := none
  use_cache : Bool := true
  normalize_text : Bool := true
  deriving DecidableEq, Repr

/-- `AudioData` from `types.h`.  `duration` is kept in milliseconds as
an integer, exactly as the engine computes it. -/
structure AudioData where
  samples : List ℚ := []
  sample_rate : Int := 24000
  channels : Int := 1
  duration_ms : Int := 0
  deriving DecidableEq, Repr

/-- `PhonemeInfo` from `types.h` (`duration` and `stress` stay at their
zero defaults on every path of the pipeline and are omitted). -/
structure PhonemeInfo where
  phoneme : String
  position : Int := 0
  deriving DecidableEq, Repr

/-- `TokenInfo` from `types.h`. -/
structure TokenInfo where
  token_id : Int
  phoneme : String
  position : Int
  deriving DecidableEq, Repr

/-- `ProcessingStats` from `types.h`, restricted to the fields whose
values do not depend on the wall clock (the five `chrono` timing fields
are not modelled). -/
structure ProcessingStats where
  text_length : Nat := 0
  phoneme_count : Nat := 0
  token_count : Nat := 0
  audio_samples : Nat := 0
  cache_hit : Bool := false
  queue_position : Int := 0
  deriving DecidableEq, Repr

/-- `TTSResult` from `types.h`. -/
structure TTSResult where
  status : Status := .OK
  audio : AudioData := {}
  phonemes : List PhonemeInfo := []
  tokens : List TokenInfo := []
  stats : ProcessingStats := {}
  error_message : String := ""
  deriving DecidableEq, Repr

/-- `TTSResult::IsSuccess` from `types.h`. -/
def TTSResult.IsSuccess (r : TTSResult) : Bool := r.status = Status.OK

-- ==========================================
-- AudioProcessor (audio_processor.cpp, part_000)
-- ==========================================

namespace AudioProcessor

/-- Peak amplitude scan from `AudioProcessor::Normalize` lines 107-111:
`for (sample : samples) peak = max(peak, abs(sample))` starting at 0. -/
def peakAmplitude (samples : List ℚ) : ℚ :=
  samples.foldl (fun peak sample => max peak |sample|) 0

/-- `AudioProcessor::ApplyVolume` (part_000 lines 128-136). -/
def ApplyVolume (samples : List ℚ) (volume : ℚ) : List ℚ :=
  samples.map (fun s => s * volume)

/-- `AudioProcessor::Normalize` (part_000 lines 102-126): empty input is
returned as-is; zero peak is returned as-is; otherwise every sample is
scaled by `0.95 / peak`. -/
def Normalize (samples : List ℚ) : List ℚ :=
  if samples = [] then samples
  else
    let peak := peakAmplitude samples
    if peak = 0 then samples
    else
      let scale := (19 / 20 : ℚ) / peak
      samples.map (fun s => s * scale)

/-- `AudioProcessor::ProcessAudio` (part_000 lines 82-100): apply volume
(skipped when `volume == 1.0`), then normalization when configured.
There is no clamping step in this function. -/
def ProcessAudio (samples : List ℚ) (volume : ℚ) (normalize : Bool) : List ℚ :=
  let result := samples
  let result := if volume ≠ 1 then ApplyVolume result volume else result
  let result := if normalize then Normalize result else result
  result

/-- Truncation toward zero, the semantics of `static_cast<int16_t>` on a
float value whose magnitude fits in the target type. -/
def truncQ (q : ℚ) : Int :=
  if 0 ≤ q then q.floor else -((-q).floor)

/-- `AudioProcessor::ToPCM16` (part_000 lines 200-209): clamp each
sample to `[-1, 1]`, multiply by 32767 and truncate to an integer. -/
def ToPCM16 (samples : List ℚ) : List Int :=
  samples.map (fun s => truncQ (max (-1 : ℚ) (min 1 s) * 32767))

end AudioProcessor

-- ==========================================
-- MeCabWrapper static kana utilities (mecab_wrapper.cpp, part_005)
-- ==========================================

namespace MeCabWrapper

/-- `MeCabWrapper::KatakanaToHiragana` (part_005 lines 379-391) on the
UTF-32 code-point sequence: code points in the Katakana block
`U+30A0..U+30FF` are shifted down by `0x60`; everything else passes
through unchanged. -/
def KatakanaToHiragana (s : List Nat) : List Nat :=
  s.map (fun ch => if 0x30A0 ≤ ch ∧ ch ≤ 0x30FF then ch - 0x60 else ch)

/-- `MeCabWrapper::HiraganaToKatakana` (part_005 lines 393-405): code
points in the Hiragana block `U+3040..U+309F` are shifted up by `0x60`. -/
def HiraganaToKatakana (s : List Nat) : List Nat :=
  s.map (fun ch => if 0x3040 ≤ ch ∧ ch ≤ 0x309F then ch + 0x60 else ch)

end MeCabWrapper

-- ==========================================
-- Shared string helpers
-- ==========================================

/-- Whitespace splitting with the semantics of `std::istringstream >>`
(used by `SplitPhonemes`, `ParsePhonemes` and the tokenizer tests): runs
of whitespace separate maximal non-whitespace runs; no empty tokens are
produced. -/
def splitWhitespaceAux : List Char → List Char → List String
  | [], acc => if acc = [] then [] else [String.mk acc.reverse]
  | c :: cs, acc =>
    if c.isWhitespace then
      if acc = [] then splitWhitespaceAux cs []
      else String.mk acc.reverse :: splitWhitespaceAux cs []
    else splitWhitespaceAux cs (c :: acc)

/-- Split a string into its whitespace-separated tokens. -/
def splitWhitespace (s : String) : List String :=
  splitWhitespaceAux s.toList []

/-- Pad a natural number to at least `k` decimal digits with leading
zeros. -/
def padZeros (n k : Nat) : String :=
  let s := toString n
  if s.length < k then String.mk (List.replicate (k - s.length) '0') ++ s else s

/-- Strip trailing `'0'` characters from a digit string. -/
def stripTrailingZeros (s : String) : String :=
  String.mk (s.toList.reverse.dropWhile (fun c => c = '0')).reverse

/-- Absolute value on ℚ, spelled with an explicit comparison so that
concrete format strings evaluate by `decide`. -/
def ratAbs (q : ℚ) : ℚ := if q < 0 then -q else q

/-- Default `std::ostream` formatting of a floating-point value
(`std::defaultfloat`, precision 6), as performed by
`TTSEngine::Impl::GenerateCacheKey`'s plain `ss << request.speed`.
Modelled exactly for values that are finite decimals with at most six
fractional digits (every value exercised by the claims is): the integer
part in decimal, then the fractional digits with trailing zeros
stripped, and no decimal point when the value is integral — e.g.
`1.0` prints as `"1"`, `0.95` as `"0.95"`. -/
def fmtDefault (q : ℚ) : String :=
  let sign := if q < 0 then ("-") else ("")
  let a := ratAbs q
  let ip := a.floor.toNat
  let frac6 := ((a - (ip : ℚ)) * 1000000).floor.toNat
  if frac6 = 0 then sign ++ toString ip
  else sign ++ toString ip ++ "." ++ stripTrailingZeros (padZeros frac6 6)

/-- Modelled from the spec: the two-decimal float formatting `f` of
§4.6 ("`f` formats floats to 2 decimal places", i.e.
`std::fixed << std::setprecision(2)`), used only to state what the
specification says the fingerprint is.  Rounds to the nearest
hundredth (half away from zero) and always prints two fractional
digits. -/
def fmtFixed2 (q : ℚ) : String :=
  let sign := if q < 0 then ("-") else ("")
  let a := ratAbs q
  let n2 := (a * 100 + 1 / 2 : ℚ).floor.toNat
  sign ++ toString (n2 / 100) ++ "." ++ padZeros (n2 % 100) 2

-- ==========================================
-- TTSEngine cache fingerprint (tts_engine.cpp in part_004, lines 792-803)
-- ==========================================

namespace TTSEngine

/-- The exact string `TTSEngine::Impl::GenerateCacheKey` feeds to
`std::hash<std::string>` (part_004 lines 793-798):
`text|voice_id|speed|pitch|volume` with default stream formatting of
the three floats.  The phoneme override is not part of this string. -/
def cacheKeyPayload (r : TTSRequest) : String :=
  r.text ++ "|" ++ r.voice_id ++ "|" ++ fmtDefault r.speed ++ "|" ++
    fmtDefault r.pitch ++ "|" ++ fmtDefault r.volume

/-- `TTSEngine::Impl::GenerateCacheKey` (part_004 lines 792-803).
`std::hash<std::string>` is implementation-defined, so the hash is a
parameter; everything proved about the key holds for every hash
function. -/
def GenerateCacheKey (stdHash : String → Nat) (r : TTSRequest) : String :=
  toString (stdHash (cacheKeyPayload r))

/-- Modelled from the spec: the pre-hash fingerprint input of §4.6,
`text | voice_id | f(speed) | f(pitch) | f(volume) | phonemes_override?`
with `f` the two-decimal formatting, the phoneme override appended when
present.  Stated only to be compared against `cacheKeyPayload`, the
string the source actually hashes. -/
def specFingerprintPayload (r : TTSRequest) : String :=
  r.text ++ "|" ++ r.voice_id ++ "|" ++ fmtFixed2 r.speed ++ "|" ++
    fmtFixed2 r.pitch ++ "|" ++ fmtFixed2 r.volume ++
    (match r.ipa_phonemes with
     | some p => "|" ++ p
     | none => "")

end TTSEngine

-- ==========================================
-- IPATokenizer (declared in ipa_tokenizer.h, exercised by the unit
-- tests in part_010)
-- ==========================================

namespace IPATokenizer

/-- Modelled from the spec: `IPATokenizer::PhonemesToTokens` is declared
in `ipa_tokenizer.h` and called by `TTSEngine::Impl::ProcessSynthesis`,
but its translation unit is not among the sources (the
`ipa_tokenizer.cpp` present implements a different interface).  Spec
§4.6 step 7: "Tokenize: Vocabulary maps each phoneme symbol to an id;
unknown → UNK", which is exactly what the repository's unit tests
assert (`PhonemesToTokens("a k i") == {4, 9, 5}` with no added
framing). -/
def PhonemesToTokens (vocab : List (String × Int)) (unk_id : Int)
    (phonemes : String) : List Int :=
  (splitWhitespace phonemes).map (fun p => (vocab.lookup p).getD unk_id)

/-- The vocabulary the repository's tokenizer unit tests load
(part_010, `test_vocab_json`). -/
def testVocab : List (String × Int) :=
  [("<pad>", 0), ("<unk>", 1), ("<start>", 2), ("<end>", 3),
   ("a", 4), ("i", 5), ("u", 6), ("e", 7), ("o", 8),
   ("k", 9), ("s", 10), ("t", 11), ("n", 12), ("m", 13), ("r", 14),
   ("w", 15), ("h", 16), ("j", 17)]

end IPATokenizer

-- ==========================================
-- VoiceManager (voice_manager.cpp)
-- ==========================================

namespace VoiceManager

/-- The `style` / `style_vector` field of a parsed voice descriptor:
a JSON array of floats, a base64 string, or absent. -/
inductive JsonStyleField where
  | arr (v : List ℚ)
  | str (encoded : String)
  | absent
  deriving DecidableEq, Repr

/-- A parsed voice JSON descriptor: the fields
`VoiceManager::Impl::LoadVoiceFromJSON` reads.  JSON parsing itself
(nlohmann) is outside the embedding; this structure is its result on
well-formed input. -/
structure VoiceJSON where
  name : Option String := none
  language : Option String := none
  gender : Option String := none
  style : JsonStyleField := .absent
  default_speed : Option ℚ := none
  default_pitch : Option ℚ := none
  description : Option String := none
  preview_url : Option String := none
  deriving DecidableEq, Repr

/-- `VoiceManager::Impl::DecodeBase64FloatVector` (voice_manager.cpp
lines 146-158): the stub ignores its argument and returns the fixed
128-element pattern `(i % 10) / 10 - 0.5`. -/
def DecodeBase64FloatVector (_encoded : String) : List ℚ :=
  (List.range 128).map (fun i => ((i % 10 : Nat) : ℚ) / 10 - 1 / 2)

/-- State of the voice registry: the `voices` map (association list,
keys distinct in reachable states) and the default voice id. -/
structure VMState where
  voices : List (String × Voice) := []
  default_voice_id : String := ""
  deriving Repr

/-- Map insertion with `voices[voice_id] = voice` semantics: replace
the existing binding or append a new one. -/
def insertVoice (voice_id : String) (v : Voice) :
    List (String × Voice) → List (String × Voice)
  | [] => [(voice_id, v)]
  | e :: es =>
    if e.1 = voice_id then (voice_id, v) :: es
    else e :: insertVoice voice_id v es

/-- Gender parsing from `LoadVoiceFromJSON` lines 83-92. -/
def parseGender (g : Option String) : VoiceGender :=
  match g with
  | none => .NEUTRAL
  | some s =>
    if s = "male" ∨ s = "MALE" then .MALE
    else if s = "female" ∨ s = "FEMALE" then .FEMALE
    else .NEUTRAL

/-- `VoiceManager::Impl::LoadVoiceFromJSON` (voice_manager.cpp lines
64-144) on a successfully parsed descriptor: build the `Voice`
(style from the array, from base64, or the 128-dim zero default),
insert it into the map, make it the default when it is the first (or
no default is set), and return `Status::OK`.  No validation of the
style-vector length against anything is performed. -/
def LoadVoiceFromJSON (st : VMState) (voice_id : String) (j : VoiceJSON) :
    Status × VMState :=
  let voice : Voice :=
    { id := voice_id
      name := j.name.getD voice_id
      language := (j.language.getD ("ja"))
      gender := parseGender j.gender
      style_vector :=
        match j.style with
        | .arr v => v
        | .str encoded => DecodeBase64FloatVector encoded
        | .absent => List.replicate 128 0
      default_speed := j.default_speed.getD 1
      default_pitch := j.default_pitch.getD 1
      description := j.description
      preview_url := j.preview_url }
  let voices := insertVoice voice_id voice st.voices
  let default_voice_id :=
    if voices.length = 1 ∨ st.default_voice_id = "" then voice_id
    else st.default_voice_id
  (Status.OK, { voices := voices, default_voice_id := default_voice_id })

/-- `VoiceManager::GetVoice` (voice_manager.cpp lines 195-204). -/
def GetVoice (st : VMState) (voice_id : String) : Option Voice :=
  st.voices.lookup voice_id

end VoiceManager

-- ==========================================
-- CacheManager (cache_manager.cpp, first implementation in the file:
-- the one `TTSEngine` instantiates — keyed by fingerprint, storing
-- `TTSResult`)
-- ==========================================

namespace CacheManager

/-- Representative 64-bit sizes for the `sizeof` constants in
`CacheManager::Impl::CalculateMemorySize`.  The exact numbers are
platform-dependent; no claim depends on them. -/
def sizeofTTSResult : Nat := 248

/-- Representative `sizeof(PhonemeInfo)`. -/
def sizeofPhonemeInfo : Nat := 48

/-- Representative `sizeof(TokenInfo)`. -/
def sizeofTokenInfo : Nat := 40

/-- `CacheManager::Impl::CalculateMemorySize` (cache_manager.cpp lines
98-105). -/
def CalculateMemorySize (r : TTSResult) : Nat :=
  sizeofTTSResult + r.audio.samples.length * 4 +
    r.phonemes.length * sizeofPhonemeInfo +
    r.tokens.length * sizeofTokenInfo + r.error_message.utf8ByteSize

/-- `CacheManager::Impl::CacheEntry` (cache_manager.cpp lines 32-39);
the two steady-clock time stamps are not modelled (the engine's cache
has `ttl_seconds = 0`, so they are never read on any path the claims
touch). -/
structure CacheEntry where
  result : TTSResult
  access_count : Nat
  memory_size : Nat
  deriving Repr

/-- The cache state: hash map (association list), LRU key list with
front = most recently used (`lru_map` is the C++-side index into the
list and carries no extra information), byte accounting, ceiling, and
statistics counters. -/
structure CMState where
  cache : List (String × CacheEntry) := []
  lru_list : List String := []
  current_size_bytes : Nat := 0
  max_size_bytes : Nat
  hits : Nat := 0
  misses : Nat := 0
  evictions : Nat := 0
  deriving Repr

/-- `cache.find(key)` on the association list (first binding wins; in
well-formed states keys are distinct). -/
def lookupKey (key : String) : List (String × CacheEntry) → Option CacheEntry
  | [] => none
  | e :: es => if e.1 = key then some e.2 else lookupKey key es

/-- `cache.erase(it)`: remove the (first) binding of `key`. -/
def eraseKey (key : String) : List (String × CacheEntry) → List (String × CacheEntry)
  | [] => []
  | e :: es => if e.1 = key then es else e :: eraseKey key es

/-- In-place update of the (first) binding of `key`. -/
def updateKey (key : String) (f : CacheEntry → CacheEntry) :
    List (String × CacheEntry) → List (String × CacheEntry)
  | [] => []
  | e :: es => if e.1 = key then (e.1, f e.2) :: es else e :: updateKey key f es

/-- `CacheManager::Impl::MoveLRU` (cache_manager.cpp lines 62-72):
unlink the key if present, then push it to the front. -/
def MoveLRU (key : String) (lru : List String) : List String :=
  key :: lru.erase key

/-- One iteration of the `EvictLRU` loop body (cache_manager.cpp lines
84-94): pop the back of the LRU list; if the key is in the map, release
its bytes, erase it and count the eviction. -/
def evictStep (s : CMState) (oldest : String) (rest : List String) : CMState :=
  match lookupKey oldest s.cache with
  | some e =>
    { s with
      lru_list := rest
      cache := eraseKey oldest s.cache
      current_size_bytes := s.current_size_bytes - e.memory_size
      evictions := s.evictions + 1 }
  | none => { s with lru_list := rest }

/-- `CacheManager::Impl::EvictLRU` (cache_manager.cpp lines 82-96):
`while (!lru_list.empty() && current_size_bytes > max_size_bytes)`
evict the least-recently-used key (the back of the list). -/
def EvictLRU (s : CMState) : CMState :=
  if h : s.lru_list ≠ [] ∧ s.max_size_bytes < s.current_size_bytes then
    EvictLRU (evictStep s (s.lru_list.getLast h.1) s.lru_list.dropLast)
  else s
termination_by s.lru_list.length
decreasing_by
  have hne := h.1
  simp [evictStep]
  split <;>
    simpa using Nat.sub_lt (List.length_pos.mpr hne) Nat.one_pos

/-- `CacheManager::Put` (cache_manager.cpp lines 157-195): update or
insert the entry, adjust the byte accounting, move the key to the MRU
front, then run `EvictLRU` synchronously. -/
def Put (s : CMState) (key : String) (result : TTSResult) : CMState :=
  let memory_size := CalculateMemorySize result
  match lookupKey key s.cache with
  | some old =>
    EvictLRU
      { s with
        cache := updateKey key
          (fun e => { e with
            result := result
            memory_size := memory_size
            access_count := e.access_count + 1 }) s.cache
        current_size_bytes := s.current_size_bytes - old.memory_size + memory_size
        lru_list := MoveLRU key s.lru_list }
  | none =>
    EvictLRU
      { s with
        cache := (key, ⟨result, 1, memory_size⟩) :: s.cache
        current_size_bytes := s.current_size_bytes + memory_size
        lru_list := MoveLRU key s.lru_list }

/-- `CacheManager::Get` (cache_manager.cpp lines 127-155).  The engine
never calls `SetTTL`, so `ttl_seconds` keeps its constructed value 0
and `IsExpired` (line 108: `if (ttl_seconds <= 0) return false`) is
identically false; the expired branch is therefore unreachable and not
modelled. -/
def Get (s : CMState) (key : String) : Option TTSResult × CMState :=
  match lookupKey key s.cache with
  | some e =>
    (some e.result,
      { s with
        cache := updateKey key
          (fun e => { e with access_count := e.access_count + 1 }) s.cache
        lru_list := MoveLRU key s.lru_list
        hits := s.hits + 1 })
  | none => (none, { s with misses := s.misses + 1 })

/-- `CacheManager::Clear` (cache_manager.cpp lines 222-229). -/
def Clear (s : CMState) : CMState :=
  { s with cache := [], lru_list := [], current_size_bytes := 0 }

/-- Key list of the map. -/
def keys (c : List (String × CacheEntry)) : List String := c.map Prod.fst

/-- Total byte footprint recorded in the map. -/
def sumSizes (c : List (String × CacheEntry)) : Nat :=
  (c.map (fun e => e.2.memory_size)).sum

/-- Representation invariant tying the three mutable structures
together: the LRU list is a permutation of the map's keys, keys are
distinct, and `current_size_bytes` is the sum of the recorded entry
sizes.  Every state reachable from the constructor satisfies it. -/
def WF (s : CMState) : Prop :=
  s.lru_list.Perm (keys s.cache) ∧ (keys s.cache).Nodup ∧
    s.current_size_bytes = sumSizes s.cache

instance (s : CMState) : Decidable (WF s) := by
  unfold WF; infer_instance

end CacheManager

-- ==========================================
-- SessionManager (session_manager.cpp in part_004)
-- ==========================================

namespace SessionManager

/-- Behaviour of one `session->Run` call of the external ONNX runtime:
either it produces output tensors (flattened to a sample buffer), or it
throws `Ort::Exception`.  The runtime is an external collaborator, so
its behaviour is an explicit argument of `RunInference`. -/
inductive InferOutcome where
  | ok (samples : List ℚ)
  | raises
  deriving Repr

/-- `SessionManager::Impl` statistics and load flag (part_004 lines
39-49); latency accumulators are wall-clock quantities and are not
modelled. -/
structure SMState where
  loaded : Bool := false
  total_inferences : Nat := 0
  deriving DecidableEq, Repr

/-- `SessionManager::Impl::RunInference` (part_004 lines 194-327): an
unloaded session returns an empty buffer; a successful run returns the
flattened first output and increments `total_inferences`; a runtime
exception is caught (lines 322-324) and an empty buffer is returned
with the statistics untouched.  The token/style/speed/pitch arguments
are marshalled into tensors and consumed by the external graph, which
the outcome argument stands for. -/
def RunInference (sm : SMState) (_tokens : List Int) (_style : List ℚ)
    (_speed _pitch : ℚ) (outcome : InferOutcome) : List ℚ × SMState :=
  if sm.loaded = false then ([], sm)
  else
    match outcome with
    | .ok samples => (samples, { sm with total_inferences := sm.total_inferences + 1 })
    | .raises => ([], sm)

end SessionManager

-- ==========================================
-- TTSEngine orchestrator (tts_engine.cpp in part_004)
-- ==========================================

namespace TTSEngine

open SessionManager

/-- A queued request (`TTSEngine::Impl::QueuedRequest`, part_004 lines
504-510; the promise/callback and time stamp are not modelled). -/
structure QueuedRequest where
  id : String
  request : TTSRequest
  deriving Repr

/-- The engine's read-only collaborators and configuration: the
phonemizer (`NormalizeText`, `Phonemize`), the tokenizer
(`PhonemesToTokens`), the hash behind the cache key, and the `TTSConfig`
knobs the synthesis path reads. -/
structure EngineCtx where
  stdHash : String → Nat
  normalizeText : String → String
  phonemize : String → String
  tokenize : String → List Int
  normalize_audio : Bool := true
  target_sample_rate : Int := 24000

/-- The mutable state of `TTSEngine::Impl`. -/
structure EngineState where
  initialized : Bool := false
  stop_processing : Bool := false
  request_queue : List QueuedRequest := []
  voices : VoiceManager.VMState := {}
  cache : CacheManager.CMState
  session : SMState := {}
  total_requests : Nat := 0
  successful_requests : Nat := 0
  failed_requests : Nat := 0
  deriving Repr

/-- `TTSEngine::Impl::ParsePhonemes` (part_004 lines 808-822): split on
whitespace and attach increasing positions. -/
def ParsePhonemes (phonemes : String) : List PhonemeInfo :=
  (splitWhitespace phonemes).enum.map
    (fun pi => { phoneme := pi.2, position := (pi.1 : Int) })

/-- Steps 1-2 of `ProcessSynthesis` (part_004 lines 645-659): the text
to phonemize (normalized when requested) and the phoneme string — the
override when provided, the phonemizer's output otherwise. -/
def phonemesForRequest (ctx : EngineCtx) (r : TTSRequest) : String :=
  let normalized_text := if r.normalize_text then ctx.normalizeText r.text else r.text
  match r.ipa_phonemes with
  | some p => p
  | none => ctx.phonemize normalized_text

/-- Step 3 of `ProcessSynthesis` (part_004 line 671): the token
sequence handed to `SessionManager::RunInference`. -/
def orchestratorTokens (ctx : EngineCtx) (r : TTSRequest) : List Int :=
  ctx.tokenize (phonemesForRequest ctx r)

/-- The cache probe of `ProcessSynthesis` (part_004 lines 635-643),
performed under the cache mutex: compute the key and, when
`use_cache`, call `CacheManager::Get`. -/
def synthesisProbe (ctx : EngineCtx) (st : EngineState) (r : TTSRequest) :
    Option TTSResult × EngineState :=
  let cache_key := GenerateCacheKey ctx.stdHash r
  if r.use_cache then
    let gc := CacheManager.Get st.cache cache_key
    (gc.1, { st with cache := gc.2 })
  else (none, st)

/-- The compute phase of `ProcessSynthesis` (part_004 lines 645-734):
phonemize, tokenize, look up the voice (missing →
`ERROR_INVALID_INPUT` with message "Voice not found: id" and no audio),
run inference, post-process the samples, populate the result, store it
in the cache when `use_cache`, and count the success.  The
`catch (std::exception)` branch (lines 735-739, status
`ERROR_INFERENCE_FAILED`) is unreachable here because every embedded
callee is total and `RunInference` swallows the runtime's exceptions
itself. -/
def synthesisCompute (ctx : EngineCtx) (st : EngineState) (r : TTSRequest)
    (outcome : InferOutcome) : TTSResult × EngineState :=
  let cache_key := GenerateCacheKey ctx.stdHash r
  let phonemes := phonemesForRequest ctx r
  let phoneme_infos := ParsePhonemes phonemes
  let tokens := orchestratorTokens ctx r
  match VoiceManager.GetVoice st.voices r.voice_id with
  | none =>
    ({ status := Status.ERROR_INVALID_INPUT
       error_message := "Voice not found: " ++ r.voice_id
       phonemes := phoneme_infos
       stats := { text_length := r.text.utf8ByteSize
                  phoneme_count := phoneme_infos.length
                  token_count := tokens.length } }, st)
  | some voice =>
    let ri := RunInference st.session tokens voice.style_vector
      (r.speed * voice.default_speed) (r.pitch * voice.default_pitch) outcome
    let audio_samples := ri.1
    let processed := AudioProcessor.ProcessAudio audio_samples r.volume ctx.normalize_audio
    let result : TTSResult :=
      { status := Status.OK
        audio :=
          { samples := processed
            sample_rate := ctx.target_sample_rate
            channels := 1
            duration_ms := (processed.length * 1000 : Int) / ctx.target_sample_rate }
        phonemes := phoneme_infos
        stats := { text_length := r.text.utf8ByteSize
                   phoneme_count := phoneme_infos.length
                   token_count := tokens.length
                   audio_samples := processed.length } }
    let cache' :=
      if r.use_cache then CacheManager.Put st.cache cache_key result else st.cache
    (result,
      { st with
        session := ri.2
        cache := cache'
        successful_requests := st.successful_requests + 1 })

/-- `TTSEngine::Impl::ProcessSynthesis` (part_004 lines 626-751): probe
the cache; a hit is returned stamped `cache_hit = true`; a miss runs
the compute phase. -/
def ProcessSynthesis (ctx : EngineCtx) (st : EngineState) (r : TTSRequest)
    (outcome : InferOutcome) : TTSResult × EngineState :=
  let probe := synthesisProbe ctx st r
  match probe.1 with
  | some cached =>
    ({ cached with stats := { cached.stats with cache_hit := true } }, probe.2)
  | none => synthesisCompute ctx probe.2 r outcome

/-- The interleaving of two callers with the same request in which both
cache probes happen before either compute phase — the schedule the
spec's single-flight property is about.  Each caller runs exactly the
code of `ProcessSynthesis`: its probe, then (on a miss) its compute
phase.  Returns both results and the final state. -/
def interleavedPair (ctx : EngineCtx) (st : EngineState) (r : TTSRequest)
    (o1 o2 : InferOutcome) : TTSResult × TTSResult × EngineState :=
  let p1 := synthesisProbe ctx st r
  let p2 := synthesisProbe ctx p1.2 r
  let step1 :=
    match p1.1 with
    | some cached =>
      ({ cached with stats := { cached.stats with cache_hit := true } }, p2.2)
    | none => synthesisCompute ctx p2.2 r o1
  let step2 :=
    match p2.1 with
    | some cached =>
      ({ cached with stats := { cached.stats with cache_hit := true } }, step1.2)
    | none => synthesisCompute ctx step1.2 r o2
  (step1.1, step2.1, step2.2)

/-- `TTSEngine::Synthesize` (part_004 lines 862-872). -/
def Synthesize (ctx : EngineCtx) (st : EngineState) (r : TTSRequest)
    (outcome : InferOutcome) : TTSResult × EngineState :=
  if st.initialized = false then
    ({ status := Status.ERROR_NOT_INITIALIZED
       error_message := "Engine not initialized" }, st)
  else
    ProcessSynthesis ctx { st with total_requests := st.total_requests + 1 } r outcome

/-- `TTSEngine::GetQueueSize` (part_004 lines 919-922). -/
def GetQueueSize (st : EngineState) : Nat := st.request_queue.length

/-- The engine operations implemented in the sources, each with the
oracle data its externals need.  `SubmitRequest` / `CancelRequest` are
declared in `tts_engine.h` but have no implementation in the
repository, so they generate no transitions. -/
inductive EngineOp where
  /-- `TTSEngine::Initialize` (part_004 lines 559-604): the oracle flag
  is whether `LoadModel` (and the rest of initialization) succeeds. -/
  | initializeEngine (loadOk : Bool)
  /-- `TTSEngine::Synthesize`. -/
  | synthesize (r : TTSRequest) (o : InferOutcome)
  /-- `TTSEngine::SynthesizeAsync` (part_004 lines 874-901): the task
  submitted to the thread pool, once executed: `total_requests++` then
  `ProcessSynthesis` (the engine's `request_queue` is not involved). -/
  | synthesizeAsyncRun (r : TTSRequest) (o : InferOutcome)
  /-- One iteration of `TTSEngine::Impl::ProcessQueue` (part_004 lines
  756-787). -/
  | processQueueStep (o : InferOutcome)
  /-- `TTSEngine::LoadVoice` via `VoiceManager` on parsed JSON. -/
  | loadVoice (voice_id : String) (j : VoiceManager.VoiceJSON)
  /-- `TTSEngine::ClearCache` (part_004 lines 911-913). -/
  | clearCache
  /-- The destructor's `stop_processing = true` (part_004 lines 547-554). -/
  | stop

/-- One engine transition. -/
def engineStep (ctx : EngineCtx) (st : EngineState) : EngineOp → EngineState
  | .initializeEngine loadOk =>
    if loadOk then
      { st with initialized := true, session := { st.session with loaded := true } }
    else
      { st with session := { st.session with loaded := false } }
  | .synthesize r o => (Synthesize ctx st r o).2
  | .synthesizeAsyncRun r o =>
    if st.initialized = false then st
    else (ProcessSynthesis ctx { st with total_requests := st.total_requests + 1 } r o).2
  | .processQueueStep o =>
    if st.stop_processing then st
    else
      match st.request_queue with
      | [] => st
      | q :: rest =>
        (ProcessSynthesis ctx { st with request_queue := rest } q.request o).2
  | .loadVoice voice_id j =>
    { st with voices := (VoiceManager.LoadVoiceFromJSON st.voices voice_id j).2 }
  | .clearCache => { st with cache := CacheManager.Clear st.cache }
  | .stop => { st with stop_processing := true }

/-- The state `TTSEngine::Impl`'s constructor establishes (part_004
lines 532-542): nothing initialized, empty queue, empty cache with the
configured byte ceiling. -/
def initialEngineState (max_cache_bytes : Nat) : EngineState :=
  { cache := { max_size_bytes := max_cache_bytes } }

/-- Run a sequence of engine operations from the freshly constructed
engine. -/
def runEngine (ctx : EngineCtx) (max_cache_bytes : Nat)
    (ops : List EngineOp) : EngineState :=
  ops.foldl (engineStep ctx) (initialEngineState max_cache_bytes)

end TTSEngine

-- ==========================================
-- Helper lemmas
-- ==========================================

namespace AudioProcessor

theorem foldl_max_abs_scale (c : ℚ) (hc : 0 ≤ c) :
    ∀ (s : List ℚ) (a : ℚ),
      (s.map (fun x => x * c)).foldl (fun peak sample => max peak |sample|) (c * a) =
        c * s.foldl (fun peak sample => max peak |sample|) a := by
  intro s
  induction s with
  | nil => intro a; simp
  | cons x xs ih =>
    intro a
    simp only [List.map_cons, List.foldl_cons]
    have habs : |x * c| = c * |x| := by
      rw [abs_mul, abs_of_nonneg hc, mul_comm]
    rw [habs, ← mul_max_of_nonneg _ _ hc, ih]

theorem peakAmplitude_map_scale (c : ℚ) (hc : 0 ≤ c) (s : List ℚ) :
    peakAmplitude (s.map (fun x => x * c)) = c * peakAmplitude s := by
  have := foldl_max_abs_scale c hc s 0
  simpa [peakAmplitude] using this

theorem le_foldl_max_abs (s : List ℚ) : ∀ a : ℚ,
    a ≤ s.foldl (fun peak sample => max peak |sample|) a := by
  induction s with
  | nil => intro a; simp
  | cons x xs ih =>
    intro a
    simp only [List.foldl_cons]
    exact le_trans (le_max_left a |x|) (ih (max a |x|))

theorem peakAmplitude_nonneg (s : List ℚ) : 0 ≤ peakAmplitude s :=
  le_foldl_max_abs s 0

theorem truncQ_abs_le (q : ℚ) (n : Int) (hn : 0 ≤ n)
    (hlo : -(n : ℚ) ≤ q) (hhi : q ≤ (n : ℚ)) :
    -n ≤ truncQ q ∧ truncQ q ≤ n := by
  unfold truncQ
  split
  · rename_i hq
    have hfl : ((Rat.floor q : Int) : ℚ) ≤ q := Rat.le_floor.mp le_rfl
    have hge : (0 : Int) ≤ Rat.floor q := Rat.le_floor.mpr (by exact_mod_cast hq)
    constructor
    · omega
    · exact_mod_cast le_trans hfl hhi
  · rename_i hq
    push_neg at hq
    have hfl : ((Rat.floor (-q) : Int) : ℚ) ≤ -q := Rat.le_floor.mp le_rfl
    have hge : (0 : Int) ≤ Rat.floor (-q) :=
      Rat.le_floor.mpr (by push_cast; linarith)
    have hle : Rat.floor (-q) ≤ n := by
      have : (-q : ℚ) ≤ (n : ℚ) := by linarith
      exact_mod_cast le_trans hfl this
    omega

end AudioProcessor

theorem ratFloor_eq (q : ℚ) (n : Int) (h1 : (n : ℚ) ≤ q) (h2 : q < (n : ℚ) + 1) :
    Rat.floor q = n := by
  have lb : n ≤ Rat.floor q := Rat.le_floor.mpr h1
  have ub : Rat.floor q < n + 1 := by
    by_contra hc
    push_neg at hc
    have hca : ((n + 1 : Int) : ℚ) ≤ q := Rat.le_floor.mp hc
    push_cast at hca
    linarith
  omega

theorem ratAbs_of_nonneg (q : ℚ) (h : 0 ≤ q) : ratAbs q = q := by
  unfold ratAbs
  rw [if_neg (not_lt.mpr h)]

theorem fmtDefault_one : fmtDefault 1 = "1" := by
  have ha : ratAbs (1 : ℚ) = 1 := ratAbs_of_nonneg 1 (by norm_num)
  have hip : Rat.floor (1 : ℚ) = 1 := ratFloor_eq 1 1 (by norm_num) (by norm_num)
  simp only [fmtDefault, ha, hip]
  have hfr : Rat.floor (((1 : ℚ) - ((Int.toNat 1 : Nat) : ℚ)) * 1000000) = 0 :=
    ratFloor_eq _ 0 (by norm_num) (by norm_num)
  rw [hfr]
  rw [if_neg (by norm_num : ¬(1 : ℚ) < 0)]
  decide

theorem fmtDefault_095 : fmtDefault (19/20 : ℚ) = "0.95" := by
  have ha : ratAbs (19/20 : ℚ) = 19/20 := ratAbs_of_nonneg _ (by norm_num)
  have hip : Rat.floor (19/20 : ℚ) = 0 := ratFloor_eq _ 0 (by norm_num) (by norm_num)
  simp only [fmtDefault, ha, hip]
  have hfr : Rat.floor ((((19 : ℚ)/20) - ((Int.toNat 0 : Nat) : ℚ)) * 1000000) = 950000 :=
    ratFloor_eq _ 950000 (by norm_num) (by norm_num)
  rw [hfr]
  rw [if_neg (by norm_num : ¬(19/20 : ℚ) < 0)]
  decide

theorem fmtFixed2_one : fmtFixed2 1 = "1.00" := by
  have ha : ratAbs (1 : ℚ) = 1 := ratAbs_of_nonneg 1 (by norm_num)
  simp only [fmtFixed2, ha]
  have hn2 : Rat.floor ((1 : ℚ) * 100 + 1 / 2) = 100 :=
    ratFloor_eq _ 100 (by norm_num) (by norm_num)
  rw [hn2]
  rw [if_neg (by norm_num : ¬(1 : ℚ) < 0)]
  decide

namespace VoiceManager

theorem lookup_insertVoice (voice_id : String) (v : Voice) :
    ∀ l : List (String × Voice), (insertVoice voice_id v l).lookup voice_id = some v := by
  intro l
  induction l with
  | nil => simp [insertVoice, List.lookup]
  | cons e es ih =>
    obtain ⟨k, b⟩ := e
    by_cases he : k = voice_id
    · simp [insertVoice, he, List.lookup]
    · have hbe : (voice_id == k) = false :=
        beq_eq_false_iff_ne.mpr (fun hh => he hh.symm)
      simp only [insertVoice, he, if_false, List.lookup, hbe]
      exact ih

end VoiceManager

namespace CacheManager

theorem lookupKey_isSome_of_mem (key : String) :
    ∀ l : List (String × CacheEntry), key ∈ keys l → ∃ e, lookupKey key l = some e := by
  intro l
  induction l with
  | nil => intro h; simp [keys] at h
  | cons p ps ih =>
    intro h
    by_cases hp : p.1 = key
    · exact ⟨p.2, by simp [lookupKey, hp]⟩
    · have : key ∈ keys ps := by
        simp only [keys, List.map_cons, List.mem_cons] at h
        exact h.resolve_left (fun hh => hp hh.symm)
      obtain ⟨e, he⟩ := ih this
      exact ⟨e, by simp [lookupKey, hp, he]⟩

theorem mem_of_lookupKey_some (key : String) (e : CacheEntry) :
    ∀ l : List (String × CacheEntry), lookupKey key l = some e → key ∈ keys l := by
  intro l
  induction l with
  | nil => intro h; simp [lookupKey] at h
  | cons p ps ih =>
    intro h
    simp only [lookupKey] at h
    by_cases hp : p.1 = key
    · simp [keys, hp]
    · rw [if_neg hp] at h
      simp only [keys, List.map_cons, List.mem_cons]
      exact Or.inr (ih h)

theorem lookupKey_none_of_not_mem (key : String) :
    ∀ l : List (String × CacheEntry), key ∉ keys l → lookupKey key l = none := by
  intro l
  induction l with
  | nil => intro _; rfl
  | cons p ps ih =>
    intro h
    simp only [keys, List.map_cons, List.mem_cons, not_or] at h
    simp only [lookupKey]
    rw [if_neg (fun hh => h.1 hh.symm)]
    exact ih h.2

theorem not_mem_of_lookupKey_none (key : String) :
    ∀ l : List (String × CacheEntry), lookupKey key l = none → key ∉ keys l := by
  intro l hl hmem
  obtain ⟨e, he⟩ := lookupKey_isSome_of_mem key l hmem
  rw [hl] at he
  exact Option.noConfusion he

theorem keys_eraseKey (key : String) :
    ∀ l : List (String × CacheEntry), keys (eraseKey key l) = (keys l).erase key := by
  intro l
  induction l with
  | nil => rfl
  | cons p ps ih =>
    by_cases hp : p.1 = key
    · simp [eraseKey, keys, hp, List.erase_cons_head]
    · have hne : (p.1 == key) = false := beq_eq_false_iff_ne.mpr hp
      simp only [eraseKey, if_neg hp, keys, List.map_cons, List.erase_cons, hne,
        Bool.false_eq_true, if_false]
      exact congrArg (List.cons p.1) ih

theorem keys_updateKey (key : String) (f : CacheEntry → CacheEntry) :
    ∀ l : List (String × CacheEntry), keys (updateKey key f l) = keys l := by
  intro l
  induction l with
  | nil => rfl
  | cons p ps ih =>
    by_cases hp : p.1 = key
    · simp [updateKey, keys, hp]
    · simp only [updateKey, if_neg hp, keys, List.map_cons]
      exact congrArg (List.cons p.1) ih

theorem memsize_le_sumSizes (key : String) (e : CacheEntry) :
    ∀ l : List (String × CacheEntry), lookupKey key l = some e →
      e.memory_size ≤ sumSizes l := by
  intro l
  induction l with
  | nil => intro h; simp [lookupKey] at h
  | cons p ps ih =>
    intro h
    simp only [lookupKey] at h
    by_cases hp : p.1 = key
    · rw [if_pos hp] at h
      cases h
      simp [sumSizes]
    · rw [if_neg hp] at h
      have hle := ih h
      simp only [sumSizes, List.map_cons, List.sum_cons]
      simp only [sumSizes] at hle
      omega

theorem sumSizes_eraseKey (key : String) (e : CacheEntry) :
    ∀ l : List (String × CacheEntry), lookupKey key l = some e →
      sumSizes (eraseKey key l) = sumSizes l - e.memory_size := by
  intro l
  induction l with
  | nil => intro h; simp [lookupKey] at h
  | cons p ps ih =>
    intro h
    simp only [lookupKey] at h
    by_cases hp : p.1 = key
    · rw [if_pos hp] at h
      cases h
      simp only [eraseKey, if_pos hp, sumSizes, List.map_cons, List.sum_cons]
      omega
    · rw [if_neg hp] at h
      have hle := memsize_le_sumSizes key e ps h
      have heq := ih h
      simp only [eraseKey, if_neg hp, sumSizes, List.map_cons, List.sum_cons]
      simp only [sumSizes] at hle heq
      omega

theorem sumSizes_updateKey (key : String) (f : CacheEntry → CacheEntry) (old : CacheEntry) :
    ∀ l : List (String × CacheEntry), lookupKey key l = some old →
      sumSizes (updateKey key f l) =
        sumSizes l - old.memory_size + (f old).memory_size := by
  intro l
  induction l with
  | nil => intro h; simp [lookupKey] at h
  | cons p ps ih =>
    intro h
    simp only [lookupKey] at h
    by_cases hp : p.1 = key
    · rw [if_pos hp] at h
      cases h
      simp only [updateKey, if_pos hp, sumSizes, List.map_cons, List.sum_cons]
      omega
    · rw [if_neg hp] at h
      have hle := memsize_le_sumSizes key old ps h
      have heq := ih h
      simp only [updateKey, if_neg hp, sumSizes, List.map_cons, List.sum_cons]
      simp only [sumSizes] at hle heq
      omega

theorem evictStep_lru (s : CMState) (o : String) (rest : List String) :
    (evictStep s o rest).lru_list = rest := by
  unfold evictStep
  split <;> rfl

theorem evictStep_max (s : CMState) (o : String) (rest : List String) :
    (evictStep s o rest).max_size_bytes = s.max_size_bytes := by
  unfold evictStep
  split <;> rfl

theorem evictStep_WF (s : CMState) (h : s.lru_list ≠ []) (hWF : WF s) :
    WF (evictStep s (s.lru_list.getLast h) s.lru_list.dropLast) := by
  obtain ⟨hperm, hnd, hsum⟩ := hWF
  set oldest := s.lru_list.getLast h with holdest
  have hsplit : s.lru_list.dropLast ++ [oldest] = s.lru_list :=
    List.dropLast_append_getLast h
  have hlru_nd : s.lru_list.Nodup := (hperm.symm.nodup_iff).mp hnd
  have hnot : oldest ∉ s.lru_list.dropLast := by
    rw [← hsplit] at hlru_nd
    obtain ⟨-, -, hdisj⟩ := List.nodup_append.mp hlru_nd
    intro hmem
    exact hdisj hmem (by simp)
  have hmemlru : oldest ∈ s.lru_list := List.getLast_mem h
  have hmemkeys : oldest ∈ keys s.cache := hperm.mem_iff.mp hmemlru
  obtain ⟨e, he⟩ := lookupKey_isSome_of_mem oldest s.cache hmemkeys
  have hrest : s.lru_list.dropLast = s.lru_list.erase oldest := by
    conv_rhs => rw [← hsplit]
    rw [List.erase_append_right _ hnot]
    simp
  unfold evictStep
  rw [he]
  refine ⟨?_, ?_, ?_⟩
  · simp only [keys_eraseKey]
    rw [hrest]
    exact hperm.erase oldest
  · simp only [keys_eraseKey]
    exact hnd.erase oldest
  · simp only
    rw [sumSizes_eraseKey oldest e s.cache he, hsum]

theorem EvictLRU_max (s : CMState) :
    (EvictLRU s).max_size_bytes = s.max_size_bytes := by
  suffices H : ∀ n (s : CMState), s.lru_list.length ≤ n →
      (EvictLRU s).max_size_bytes = s.max_size_bytes from H _ s le_rfl
  intro n
  induction n with
  | zero =>
    intro s hs
    rw [EvictLRU]
    rw [dif_neg]
    intro hcon
    exact hcon.1 (List.length_eq_zero.mp (Nat.le_zero.mp hs))
  | succ n ih =>
    intro s hs
    rw [EvictLRU]
    split
    · rename_i hcond
      rw [ih _ (by rw [evictStep_lru, List.length_dropLast]; omega),
        evictStep_max]
    · rfl

theorem dropLast_isPrefix (l : List String) : List.IsPrefix l.dropLast l := by
  by_cases h : l = []
  · subst h
    exact List.prefix_refl _
  · exact ⟨[l.getLast h], List.dropLast_append_getLast h⟩

theorem EvictLRU_lruIsPrefix (s : CMState) :
    List.IsPrefix (EvictLRU s).lru_list s.lru_list := by
  suffices H : ∀ n (s : CMState), s.lru_list.length ≤ n →
      List.IsPrefix (EvictLRU s).lru_list s.lru_list from H _ s le_rfl
  intro n
  induction n with
  | zero =>
    intro s hs
    rw [EvictLRU]
    rw [dif_neg (fun hcon => hcon.1 (List.length_eq_zero.mp (Nat.le_zero.mp hs)))]
  | succ n ih =>
    intro s hs
    rw [EvictLRU]
    split
    · rename_i hcond
      have h1 := ih (evictStep s (s.lru_list.getLast hcond.1) s.lru_list.dropLast)
        (by rw [evictStep_lru, List.length_dropLast]; omega)
      refine h1.trans ?_
      rw [evictStep_lru]
      exact dropLast_isPrefix _
    · exact List.prefix_refl _

theorem EvictLRU_WF_bound (s : CMState) (hWF : WF s) :
    WF (EvictLRU s) ∧ (EvictLRU s).current_size_bytes ≤ s.max_size_bytes := by
  suffices H : ∀ n (s : CMState), s.lru_list.length ≤ n → WF s →
      WF (EvictLRU s) ∧ (EvictLRU s).current_size_bytes ≤ s.max_size_bytes from
    H _ s le_rfl hWF
  intro n
  induction n with
  | zero =>
    intro s hs hW
    have hempty : s.lru_list = [] := List.length_eq_zero.mp (Nat.le_zero.mp hs)
    rw [EvictLRU, dif_neg (fun hcon => hcon.1 hempty)]
    refine ⟨hW, ?_⟩
    obtain ⟨hperm, -, hsum⟩ := hW
    have : keys s.cache = [] := by
      have hp2 := hperm.symm
      rw [hempty] at hp2
      exact List.Perm.eq_nil hp2
    have hc : s.cache = [] := List.map_eq_nil_iff.mp this
    rw [hsum, hc]
    simp [sumSizes]
  | succ n ih =>
    intro s hs hW
    rw [EvictLRU]
    split
    · rename_i hcond
      have hW2 := evictStep_WF s hcond.1 hW
      have hlen : (evictStep s (s.lru_list.getLast hcond.1)
          s.lru_list.dropLast).lru_list.length ≤ n := by
        rw [evictStep_lru, List.length_dropLast]; omega
      obtain ⟨hWr, hbd⟩ := ih _ hlen hW2
      exact ⟨hWr, by rwa [evictStep_max] at hbd⟩
    · rename_i hcond
      push_neg at hcond
      refine ⟨hW, ?_⟩
      by_cases hemp : s.lru_list = []
      · obtain ⟨hperm, -, hsum⟩ := hW
        have : keys s.cache = [] := by
          have h2 := hperm.symm
          rw [hemp] at h2
          exact List.Perm.eq_nil h2
        have hc : s.cache = [] := List.map_eq_nil_iff.mp this
        rw [hsum, hc]
        simp [sumSizes]
      · exact le_of_not_lt (by intro hlt; exact absurd (hcond hemp) (not_le.mpr hlt))

theorem WF_insertPhase_update (s : CMState) (key : String)
    (f : CacheEntry → CacheEntry) (old : CacheEntry)
    (hWF : WF s) (hl : lookupKey key s.cache = some old) :
    WF { s with
      cache := updateKey key f s.cache
      current_size_bytes := s.current_size_bytes - old.memory_size + (f old).memory_size
      lru_list := MoveLRU key s.lru_list } := by
  obtain ⟨hperm, hnd, hsum⟩ := hWF
  have hmem : key ∈ keys s.cache := mem_of_lookupKey_some key old s.cache hl
  have hmemlru : key ∈ s.lru_list := hperm.mem_iff.mpr hmem
  refine ⟨?_, ?_, ?_⟩
  · simp only [keys_updateKey, MoveLRU]
    exact ((List.perm_cons_erase hmemlru).symm).trans hperm
  · simpa only [keys_updateKey] using hnd
  · simp only
    rw [sumSizes_updateKey key f old s.cache hl, hsum]

theorem WF_insertPhase_new (s : CMState) (key : String) (entry : CacheEntry)
    (hWF : WF s) (hl : lookupKey key s.cache = none) :
    WF { s with
      cache := (key, entry) :: s.cache
      current_size_bytes := s.current_size_bytes + entry.memory_size
      lru_list := MoveLRU key s.lru_list } := by
  obtain ⟨hperm, hnd, hsum⟩ := hWF
  have hnomem : key ∉ keys s.cache := not_mem_of_lookupKey_none key s.cache hl
  have hnolru : key ∉ s.lru_list := fun hmem => hnomem (hperm.mem_iff.mp hmem)
  refine ⟨?_, ?_, ?_⟩
  · simp only [keys, List.map_cons, MoveLRU]
    rw [List.erase_of_not_mem hnolru]
    exact hperm.cons key
  · simp only [keys, List.map_cons]
    exact List.Nodup.cons hnomem hnd
  · simp only [sumSizes, List.map_cons, List.sum_cons]
    simp only [sumSizes] at hsum
    omega

end CacheManager

-- ==========================================
-- Claim C4
-- ==========================================

/-- C4 (confirmed): after every `Put` on a well-formed cache state the
tracked byte footprint is at most the configured byte ceiling; the
eviction loop runs synchronously inside `Put` (it is the final step of
the embedded `Put` itself), it removes entries only from the
least-recently-used end (the surviving LRU list is a prefix of the
pre-eviction list, which drops only from the back), the ceiling is
untouched, and well-formedness is preserved, so the bound holds after
every later `Put` as well. -/
theorem C4_theorem (s : CacheManager.CMState) (key : String) (result : TTSResult)
    (hWF : CacheManager.WF s) :
    (CacheManager.Put s key result).current_size_bytes ≤
      (CacheManager.Put s key result).max_size_bytes ∧
    (CacheManager.Put s key result).max_size_bytes = s.max_size_bytes ∧
    List.IsPrefix (CacheManager.Put s key result).lru_list
      (CacheManager.MoveLRU key s.lru_list) ∧
    CacheManager.WF (CacheManager.Put s key result) := by
  unfold CacheManager.Put
  cases hl : CacheManager.lookupKey key s.cache with
  | some old =>
    have hWF1 := CacheManager.WF_insertPhase_update s key
      (fun e => { e with
        result := result
        memory_size := CacheManager.CalculateMemorySize result
        access_count := e.access_count + 1 }) old hWF hl
    obtain ⟨hWr, hbd⟩ := CacheManager.EvictLRU_WF_bound _ hWF1
    refine ⟨?_, ?_, ?_, hWr⟩
    · rw [CacheManager.EvictLRU_max]
      exact hbd
    · rw [CacheManager.EvictLRU_max]
    · exact CacheManager.EvictLRU_lruIsPrefix _
  | none =>
    have hWF1 := CacheManager.WF_insertPhase_new s key
      ⟨result, 1, CacheManager.CalculateMemorySize result⟩ hWF hl
    obtain ⟨hWr, hbd⟩ := CacheManager.EvictLRU_WF_bound _ hWF1
    refine ⟨?_, ?_, ?_, hWr⟩
    · rw [CacheManager.EvictLRU_max]
      exact hbd
    · rw [CacheManager.EvictLRU_max]
    · exact CacheManager.EvictLRU_lruIsPrefix _

/-- C4 witness: a concrete `Put` into an empty well-formed cache with a
zero byte ceiling — the freshly inserted entry itself is evicted and
the bound holds. -/
theorem C4_witness :
    CacheManager.WF { max_size_bytes := 0 } ∧
    (CacheManager.Put { max_size_bytes := 0 } "k" {}).current_size_bytes ≤
      (CacheManager.Put { max_size_bytes := 0 } "k" {}).max_size_bytes := by
  have hWF : CacheManager.WF { max_size_bytes := 0 } := by
    refine ⟨?_, ?_, ?_⟩ <;> simp [CacheManager.keys, CacheManager.sumSizes]
  exact ⟨hWF, (C4_theorem { max_size_bytes := 0 } "k" {} hWF).1⟩

-- ==========================================
-- Claim C5
-- ==========================================

/-- C5 counterexample: `ProcessAudio` contains no clamping step, so its
output is not confined to `[-1, 1]` — the raw sample `2` with volume 1
and normalization off is returned as `2`.  (Clamping happens only later
in `ToPCM16`.) -/
theorem C5_counterexample :
    AudioProcessor.ProcessAudio [(2 : ℚ)] 1 false = [(2 : ℚ)] ∧ ¬((2 : ℚ) ≤ 1) := by
  decide

/-- C5 (corrected): post-processing multiplies by the request volume
and, when configured, rescales so the peak is exactly 0.95 (for a
nonempty buffer with nonzero peak); no clamping is applied there — the
clamp to `[-1, 1]` exists only in the PCM16 conversion, whose outputs
are bounded by ±32767. -/
theorem C5_theorem :
    (∀ (samples : List ℚ) (volume : ℚ),
        AudioProcessor.ProcessAudio samples volume false =
          AudioProcessor.ApplyVolume samples volume) ∧
    (∀ (samples : List ℚ) (volume : ℚ),
        AudioProcessor.ProcessAudio samples volume true =
          AudioProcessor.Normalize (AudioProcessor.ApplyVolume samples volume)) ∧
    (∀ samples : List ℚ, samples ≠ [] → AudioProcessor.peakAmplitude samples ≠ 0 →
        AudioProcessor.peakAmplitude (AudioProcessor.Normalize samples) = 19 / 20) ∧
    (∀ (samples : List ℚ) (x : Int), x ∈ AudioProcessor.ToPCM16 samples →
        -32767 ≤ x ∧ x ≤ 32767) := by
  refine ⟨?_, ?_, ?_, ?_⟩
  · intro samples volume
    by_cases hv : volume = 1 <;>
      simp [AudioProcessor.ProcessAudio, AudioProcessor.ApplyVolume, hv]
  · intro samples volume
    by_cases hv : volume = 1 <;>
      simp [AudioProcessor.ProcessAudio, AudioProcessor.ApplyVolume, hv]
  · intro samples hne hpe
    simp only [AudioProcessor.Normalize, if_neg hne, if_neg hpe]
    rw [AudioProcessor.peakAmplitude_map_scale _
      (div_nonneg (by norm_num) (AudioProcessor.peakAmplitude_nonneg samples))]
    exact div_mul_cancel₀ _ hpe
  · intro samples x hx
    unfold AudioProcessor.ToPCM16 at hx
    obtain ⟨s, _, rfl⟩ := List.mem_map.mp hx
    have h1 : -(1 : ℚ) ≤ max (-1 : ℚ) (min 1 s) := le_max_left _ _
    have h2 : max (-1 : ℚ) (min 1 s) ≤ 1 := max_le (by norm_num) (min_le_left _ _)
    exact AudioProcessor.truncQ_abs_le _ 32767 (by norm_num)
      (by push_cast; nlinarith) (by push_cast; nlinarith)

/-- C5 witness: the normalization equation and the PCM16 bound at
concrete inputs. -/
theorem C5_witness :
    AudioProcessor.peakAmplitude (AudioProcessor.Normalize [(1 : ℚ)/2]) = 19 / 20 ∧
    (-32767 ≤ (32767 : Int) ∧ (32767 : Int) ≤ 32767) := by
  have hpeak : AudioProcessor.peakAmplitude [(1 : ℚ)/2] = 1/2 := by
    unfold AudioProcessor.peakAmplitude
    simp only [List.foldl_cons, List.foldl_nil]
    rw [abs_of_pos (by norm_num : (0 : ℚ) < 1/2)]
    exact max_eq_right (by norm_num)
  constructor
  · exact C5_theorem.2.2.1 [(1 : ℚ)/2] (by simp) (by rw [hpeak]; norm_num)
  · have hmem : (32767 : Int) ∈ AudioProcessor.ToPCM16 [(2 : ℚ)] := by
      have h2 : max (-1 : ℚ) (min 1 2) = 1 := by norm_num
      have hfl : AudioProcessor.truncQ ((32767 : ℚ)) = 32767 := by
        unfold AudioProcessor.truncQ
        rw [if_pos (by norm_num)]
        have hub : ((Rat.floor ((32767 : ℚ)) : Int) : ℚ) ≤ (32767 : ℚ) :=
          Rat.le_floor.mp le_rfl
        have hlb : (32767 : Int) ≤ Rat.floor ((32767 : ℚ)) :=
          Rat.le_floor.mpr (by norm_num)
        have hub2 : Rat.floor ((32767 : ℚ)) ≤ 32767 := by
          by_contra hcon
          push_neg at hcon
          have : ((32768 : Int) : ℚ) ≤ (32767 : ℚ) :=
            le_trans (by exact_mod_cast hcon) hub
          norm_num at this
        omega
      unfold AudioProcessor.ToPCM16
      simp [h2, hfl]
    exact C5_theorem.2.2.2 [(2 : ℚ)] 32767 hmem

-- ==========================================
-- Claim C9
-- ==========================================

/-- C9 (confirmed): converting a Hiragana-block string to Katakana and
back is the identity — the two static conversions shift the blocks by
`±0x60` and the shifted image of the Hiragana block lies exactly in the
Katakana test range of the inverse map. -/
theorem C9_theorem (s : List Nat) (h : ∀ c ∈ s, 0x3040 ≤ c ∧ c ≤ 0x309F) :
    MeCabWrapper.KatakanaToHiragana (MeCabWrapper.HiraganaToKatakana s) = s := by
  unfold MeCabWrapper.KatakanaToHiragana MeCabWrapper.HiraganaToKatakana
  rw [List.map_map]
  have hpt : ∀ c ∈ s,
      ((fun ch => if 0x30A0 ≤ ch ∧ ch ≤ 0x30FF then ch - 0x60 else ch) ∘
        fun ch => if 0x3040 ≤ ch ∧ ch ≤ 0x309F then ch + 0x60 else ch) c = c := by
    intro c hc
    obtain ⟨h1, h2⟩ := h c hc
    simp only [Function.comp_apply]
    have e1 : (if 0x3040 ≤ c ∧ c ≤ 0x309F then c + 0x60 else c) = c + 0x60 :=
      if_pos ⟨h1, h2⟩
    rw [e1, if_pos (⟨by omega, by omega⟩ : 0x30A0 ≤ c + 0x60 ∧ c + 0x60 ≤ 0x30FF)]
    omega
  exact (List.map_congr_left hpt).trans s.map_id

/-- C9 witness: the round trip on こんにちは
(`[0x3053, 0x3093, 0x306B, 0x3061, 0x306F]`). -/
theorem C9_witness :
    (∀ c ∈ [0x3053, 0x3093, 0x306B, 0x3061, 0x306F], 0x3040 ≤ c ∧ c ≤ 0x309F) ∧
    MeCabWrapper.KatakanaToHiragana
        (MeCabWrapper.HiraganaToKatakana [0x3053, 0x3093, 0x306B, 0x3061, 0x306F]) =
      [0x3053, 0x3093, 0x306B, 0x3061, 0x306F] :=
  ⟨by decide, C9_theorem _ (by decide)⟩

-- ==========================================
-- Claim C1
-- ==========================================

/-- C1 counterexample: the string the orchestrator hashes differs from
the fingerprint input the spec prescribes.  A request with a phoneme
override and the same request without one hash the same payload (the
override never enters `GenerateCacheKey`), while the spec's fingerprint
distinguishes them; and for `speed = pitch = volume = 1` the source
formats the floats as `"1"` (default stream formatting), not `"1.00"`. -/
theorem C1_counterexample :
    TTSEngine.cacheKeyPayload
        { text := "a", voice_id := "v", ipa_phonemes := some ("x") } =
      TTSEngine.cacheKeyPayload { text := "a", voice_id := "v" } ∧
    TTSEngine.specFingerprintPayload
        { text := "a", voice_id := "v", ipa_phonemes := some ("x") } ≠
      TTSEngine.specFingerprintPayload { text := "a", voice_id := "v" } ∧
    TTSEngine.cacheKeyPayload { text := "a", voice_id := "v" } ≠
      TTSEngine.specFingerprintPayload { text := "a", voice_id := "v" } := by
  refine ⟨rfl, ?_, ?_⟩ <;>
    simp only [TTSEngine.cacheKeyPayload, TTSEngine.specFingerprintPayload,
      fmtDefault_one, fmtFixed2_one] <;> decide

/-- C1 (corrected): the fingerprint is
`hash(text|voice_id|speed|pitch|volume)` with default stream formatting
of the floats (`1.0` prints as `"1"`, not `"1.00"`), and the phoneme
override is not part of the hashed input: for every hash function,
requests differing only in `ipa_phonemes` share the same cache key. -/
theorem C1_theorem (stdHash : String → Nat) (r : TTSRequest) (p : Option String) :
    TTSEngine.GenerateCacheKey stdHash { r with ipa_phonemes := p } =
      TTSEngine.GenerateCacheKey stdHash r ∧
    fmtDefault 1 = "1" ∧ fmtDefault (19/20 : ℚ) = "0.95" ∧ fmtFixed2 1 = "1.00" :=
  ⟨rfl, fmtDefault_one, fmtDefault_095, fmtFixed2_one⟩

namespace TTSEngine

theorem Get_none (c : CacheManager.CMState) (key : String)
    (h : CacheManager.lookupKey key c.cache = none) :
    CacheManager.Get c key = (none, { c with misses := c.misses + 1 }) := by
  unfold CacheManager.Get
  rw [h]

theorem synthesisProbe_voices (ctx : EngineCtx) (st : EngineState) (r : TTSRequest) :
    (synthesisProbe ctx st r).2.voices = st.voices := by
  unfold synthesisProbe CacheManager.Get
  split
  · cases CacheManager.lookupKey (GenerateCacheKey ctx.stdHash r) st.cache.cache <;> rfl
  · rfl

theorem synthesisProbe_session (ctx : EngineCtx) (st : EngineState) (r : TTSRequest) :
    (synthesisProbe ctx st r).2.session = st.session := by
  unfold synthesisProbe CacheManager.Get
  split
  · cases CacheManager.lookupKey (GenerateCacheKey ctx.stdHash r) st.cache.cache <;> rfl
  · rfl

theorem synthesisProbe_queue (ctx : EngineCtx) (st : EngineState) (r : TTSRequest) :
    (synthesisProbe ctx st r).2.request_queue = st.request_queue := by
  unfold synthesisProbe CacheManager.Get
  split
  · cases CacheManager.lookupKey (GenerateCacheKey ctx.stdHash r) st.cache.cache <;> rfl
  · rfl

theorem synthesisProbe_miss (ctx : EngineCtx) (st : EngineState) (r : TTSRequest)
    (hc : r.use_cache = true)
    (hm : CacheManager.lookupKey (GenerateCacheKey ctx.stdHash r) st.cache.cache = none) :
    synthesisProbe ctx st r =
      (none, { st with cache := { st.cache with misses := st.cache.misses + 1 } }) := by
  unfold synthesisProbe
  rw [hc]
  simp only [if_true]
  rw [Get_none _ _ hm]

theorem runInference_raises (sm : SessionManager.SMState) (tokens : List Int)
    (style : List ℚ) (speed pitch : ℚ) :
    SessionManager.RunInference sm tokens style speed pitch .raises = ([], sm) := by
  unfold SessionManager.RunInference
  split <;> rfl

theorem processAudio_nil (volume : ℚ) (normalize : Bool) :
    AudioProcessor.ProcessAudio [] volume normalize = [] := by
  unfold AudioProcessor.ProcessAudio AudioProcessor.ApplyVolume AudioProcessor.Normalize
  split <;> split <;> simp

theorem synthesisCompute_queue (ctx : EngineCtx) (st : EngineState) (r : TTSRequest)
    (o : SessionManager.InferOutcome) :
    (synthesisCompute ctx st r o).2.request_queue = st.request_queue := by
  unfold synthesisCompute
  cases hv : VoiceManager.GetVoice st.voices r.voice_id <;> simp [hv]

theorem ProcessSynthesis_queue (ctx : EngineCtx) (st : EngineState) (r : TTSRequest)
    (o : SessionManager.InferOutcome) :
    (ProcessSynthesis ctx st r o).2.request_queue = st.request_queue := by
  unfold ProcessSynthesis
  cases hp : (synthesisProbe ctx st r).1 with
  | some cached => simp only [hp]; exact synthesisProbe_queue ctx st r
  | none =>
    simp only [hp]
    rw [synthesisCompute_queue, synthesisProbe_queue]

theorem synthesisCompute_session_ok (ctx : EngineCtx) (st : EngineState)
    (r : TTSRequest) (v : Voice) (s : List ℚ)
    (hv : VoiceManager.GetVoice st.voices r.voice_id = some v)
    (hl : st.session.loaded = true) :
    (synthesisCompute ctx st r (.ok s)).2.session =
      { st.session with total_inferences := st.session.total_inferences + 1 } ∧
    (synthesisCompute ctx st r (.ok s)).2.voices = st.voices := by
  unfold synthesisCompute
  simp only [hv]
  unfold SessionManager.RunInference
  rw [hl]
  simp

end TTSEngine

-- ==========================================
-- Claim C6
-- ==========================================

/-- C6 counterexample: synthesizing with the unknown voice id
`"does_not_exist"` yields `Status::ERROR_INVALID_INPUT` — the `Status`
enumeration embedded from `types.h` contains no voice-not-found member
at all, so the result does not (and cannot) carry a dedicated
voice-not-found error code; the other two observations of the claim
(empty samples, id in the message) do hold. -/
theorem C6_counterexample :
    (TTSEngine.ProcessSynthesis
      { stdHash := fun _ => 0, normalizeText := id, phonemize := fun _ => "",
        tokenize := fun _ => [], normalize_audio := false, target_sample_rate := 24000 }
      { cache := { max_size_bytes := 0 } }
      { text := "t", voice_id := "does_not_exist", ipa_phonemes := some ("a"),
        use_cache := false, normalize_text := false }
      (.ok [])).1.status = Status.ERROR_INVALID_INPUT ∧
    (TTSEngine.ProcessSynthesis
      { stdHash := fun _ => 0, normalizeText := id, phonemize := fun _ => "",
        tokenize := fun _ => [], normalize_audio := false, target_sample_rate := 24000 }
      { cache := { max_size_bytes := 0 } }
      { text := "t", voice_id := "does_not_exist", ipa_phonemes := some ("a"),
        use_cache := false, normalize_text := false }
      (.ok [])).1.audio.samples = [] ∧
    (TTSEngine.ProcessSynthesis
      { stdHash := fun _ => 0, normalizeText := id, phonemize := fun _ => "",
        tokenize := fun _ => [], normalize_audio := false, target_sample_rate := 24000 }
      { cache := { max_size_bytes := 0 } }
      { text := "t", voice_id := "does_not_exist", ipa_phonemes := some ("a"),
        use_cache := false, normalize_text := false }
      (.ok [])).1.error_message = "Voice not found: does_not_exist" := by
  refine ⟨rfl, rfl, rfl⟩

/-- C6 (corrected): a request naming no loaded voice (reaching the
compute phase, i.e. not answered from the cache) yields the generic
`ERROR_INVALID_INPUT` status — the codebase has no dedicated
voice-not-found status —, an empty sample buffer, and the error message
"Voice not found: <id>", which contains the requested id. -/
theorem C6_theorem (ctx : TTSEngine.EngineCtx) (st : TTSEngine.EngineState)
    (r : TTSRequest) (o : SessionManager.InferOutcome)
    (hprobe : (TTSEngine.synthesisProbe ctx st r).1 = none)
    (hv : VoiceManager.GetVoice st.voices r.voice_id = none) :
    (TTSEngine.ProcessSynthesis ctx st r o).1.status = Status.ERROR_INVALID_INPUT ∧
    (TTSEngine.ProcessSynthesis ctx st r o).1.audio.samples = [] ∧
    ∃ pre post, (TTSEngine.ProcessSynthesis ctx st r o).1.error_message =
      pre ++ r.voice_id ++ post := by
  have hv2 : VoiceManager.GetVoice (TTSEngine.synthesisProbe ctx st r).2.voices
      r.voice_id = none := by
    rw [TTSEngine.synthesisProbe_voices]
    exact hv
  refine ⟨?_, ?_, ?_⟩ <;>
    (unfold TTSEngine.ProcessSynthesis
     simp only [hprobe]
     unfold TTSEngine.synthesisCompute
     simp only [hv2])
  exact ⟨"Voice not found: ", "", by simp⟩

/-- C6 witness: the corrected claim at the concrete missing-voice
request of the end-to-end scenario. -/
theorem C6_witness :
    (TTSEngine.ProcessSynthesis
      { stdHash := fun _ => 0, normalizeText := id, phonemize := fun _ => "",
        tokenize := fun _ => [], normalize_audio := false, target_sample_rate := 24000 }
      { cache := { max_size_bytes := 0 } }
      { text := "こんにちは", voice_id := "does_not_exist", use_cache := false }
      (.ok [])).1.status = Status.ERROR_INVALID_INPUT ∧
    (TTSEngine.ProcessSynthesis
      { stdHash := fun _ => 0, normalizeText := id, phonemize := fun _ => "",
        tokenize := fun _ => [], normalize_audio := false, target_sample_rate := 24000 }
      { cache := { max_size_bytes := 0 } }
      { text := "こんにちは", voice_id := "does_not_exist", use_cache := false }
      (.ok [])).1.audio.samples = [] ∧
    ∃ pre post,
      (TTSEngine.ProcessSynthesis
        { stdHash := fun _ => 0, normalizeText := id, phonemize := fun _ => "",
          tokenize := fun _ => [], normalize_audio := false, target_sample_rate := 24000 }
        { cache := { max_size_bytes := 0 } }
        { text := "こんにちは", voice_id := "does_not_exist", use_cache := false }
        (.ok [])).1.error_message = pre ++ "does_not_exist" ++ post :=
  C6_theorem _ _ _ _ rfl rfl

-- ==========================================
-- Claim C2
-- ==========================================

/-- C2 counterexample: with a loaded session and a registered voice,
a synthesis during which the inference runtime raises is reported with
`Status::OK` (and empty audio) — not `ERROR_INFERENCE_FAILED`.
`RunInference` catches the runtime's exception and returns an empty
buffer, and `ProcessSynthesis` never checks for it: its own
`catch` clause (the only place `ERROR_INFERENCE_FAILED` is assigned) is
unreachable for runtime failures. -/
theorem C2_counterexample :
    (TTSEngine.ProcessSynthesis
      { stdHash := fun _ => 0, normalizeText := id, phonemize := fun _ => "",
        tokenize := fun _ => [], normalize_audio := false, target_sample_rate := 24000 }
      { cache := { max_size_bytes := 0 },
        session := { loaded := true },
        voices := { voices := [("v", { id := "v", name := "v", style_vector := [] })],
                    default_voice_id := "v" } }
      { text := "t", voice_id := "v", ipa_phonemes := some ("a"),
        use_cache := false, normalize_text := false }
      .raises).1.status = Status.OK ∧
    (TTSEngine.ProcessSynthesis
      { stdHash := fun _ => 0, normalizeText := id, phonemize := fun _ => "",
        tokenize := fun _ => [], normalize_audio := false, target_sample_rate := 24000 }
      { cache := { max_size_bytes := 0 },
        session := { loaded := true },
        voices := { voices := [("v", { id := "v", name := "v", style_vector := [] })],
                    default_voice_id := "v" } }
      { text := "t", voice_id := "v", ipa_phonemes := some ("a"),
        use_cache := false, normalize_text := false }
      .raises).1.audio.samples = [] ∧
    Status.OK ≠ Status.ERROR_INFERENCE_FAILED := by
  refine ⟨rfl, by decide, by decide⟩

/-- C2 (corrected): when the runtime raises, the inference session
does return an empty sample buffer (first conjunct, for every session
state); but the orchestrator does not promote this to
`ERROR_INFERENCE_FAILED` — for any request that reaches inference
(cache miss, voice found), the result carries `Status::OK` with empty
audio, and the session statistics record no invocation. -/
theorem C2_theorem (ctx : TTSEngine.EngineCtx) (st : TTSEngine.EngineState)
    (r : TTSRequest) (v : Voice)
    (hprobe : (TTSEngine.synthesisProbe ctx st r).1 = none)
    (hv : VoiceManager.GetVoice st.voices r.voice_id = some v) :
    (∀ (sm : SessionManager.SMState) (tokens : List Int) (style : List ℚ)
        (speed pitch : ℚ),
      (SessionManager.RunInference sm tokens style speed pitch .raises).1 = []) ∧
    (TTSEngine.ProcessSynthesis ctx st r .raises).1.status = Status.OK ∧
    (TTSEngine.ProcessSynthesis ctx st r .raises).1.audio.samples = [] ∧
    (TTSEngine.ProcessSynthesis ctx st r .raises).2.session = st.session := by
  have hv2 : VoiceManager.GetVoice (TTSEngine.synthesisProbe ctx st r).2.voices
      r.voice_id = some v := by
    rw [TTSEngine.synthesisProbe_voices]
    exact hv
  refine ⟨fun sm tokens style speed pitch => by rw [TTSEngine.runInference_raises], ?_, ?_, ?_⟩ <;>
    (unfold TTSEngine.ProcessSynthesis
     simp only [hprobe]
     unfold TTSEngine.synthesisCompute
     simp only [hv2, TTSEngine.runInference_raises, TTSEngine.processAudio_nil]) <;>
    simp [TTSEngine.synthesisProbe_session]

/-- C2 witness: the corrected claim at a concrete loaded engine. -/
theorem C2_witness :
    (TTSEngine.ProcessSynthesis
      { stdHash := fun _ => 0, normalizeText := id, phonemize := fun _ => "",
        tokenize := fun _ => [], normalize_audio := true, target_sample_rate := 24000 }
      { cache := { max_size_bytes := 0 },
        session := { loaded := true },
        voices := { voices := [("w", { id := "w", name := "w", style_vector := [] })],
                    default_voice_id := "w" } }
      { text := "u", voice_id := "w", ipa_phonemes := some ("o"),
        use_cache := false, normalize_text := false }
      .raises).1.status = Status.OK ∧
    (TTSEngine.ProcessSynthesis
      { stdHash := fun _ => 0, normalizeText := id, phonemize := fun _ => "",
        tokenize := fun _ => [], normalize_audio := true, target_sample_rate := 24000 }
      { cache := { max_size_bytes := 0 },
        session := { loaded := true },
        voices := { voices := [("w", { id := "w", name := "w", style_vector := [] })],
                    default_voice_id := "w" } }
      { text := "u", voice_id := "w", ipa_phonemes := some ("o"),
        use_cache := false, normalize_text := false }
      .raises).1.audio.samples = [] := by
  have H := C2_theorem
    { stdHash := fun _ => 0, normalizeText := id, phonemize := fun _ => "",
      tokenize := fun _ => [], normalize_audio := true, target_sample_rate := 24000 }
    { cache := { max_size_bytes := 0 },
      session := { loaded := true },
      voices := { voices := [("w", { id := "w", name := "w", style_vector := [] })],
                  default_voice_id := "w" } }
    { text := "u", voice_id := "w", ipa_phonemes := some ("o"),
      use_cache := false, normalize_text := false }
    { id := "w", name := "w", style_vector := [] }
    rfl rfl
  exact ⟨H.2.1, H.2.2.1⟩

-- ==========================================
-- Claim C3
-- ==========================================

/-- C3 counterexample: two callers submit the identical cacheable
request; in the interleaving where both cache probes happen before
either computation (both miss), each caller runs inference — the
session's `total_inferences` rises by 2, not 1.  The code contains no
single-flight structure: nothing keys in-flight computations, so
nothing stops the second caller from computing. -/
theorem C3_counterexample :
    (TTSEngine.interleavedPair
      { stdHash := fun _ => 0, normalizeText := id, phonemize := fun _ => "",
        tokenize := fun _ => [], normalize_audio := false, target_sample_rate := 24000 }
      { cache := { max_size_bytes := 1000000 },
        session := { loaded := true },
        voices := { voices := [("v", { id := "v", name := "v", style_vector := [] })],
                    default_voice_id := "v" } }
      { text := "t", voice_id := "v", ipa_phonemes := some ("a"),
        use_cache := true, normalize_text := false }
      (.ok []) (.ok [])).2.2.session.total_inferences = 2 ∧ (2 : Nat) ≠ 1 := by
  refine ⟨rfl, by decide⟩

/-- C3 (corrected): there is no single-flight: whenever two concurrent
callers of the same cacheable request both probe the cache before
either finishes (both miss), the inference session is invoked once per
caller — exactly twice, not once.  Sharing happens only through the
cache, after a computation has been stored. -/
theorem C3_theorem (ctx : TTSEngine.EngineCtx) (st : TTSEngine.EngineState)
    (r : TTSRequest) (v : Voice) (s1 s2 : List ℚ)
    (hl : st.session.loaded = true)
    (hv : VoiceManager.GetVoice st.voices r.voice_id = some v)
    (hc : r.use_cache = true)
    (hm : CacheManager.lookupKey (TTSEngine.GenerateCacheKey ctx.stdHash r)
      st.cache.cache = none) :
    (TTSEngine.interleavedPair ctx st r (.ok s1) (.ok s2)).2.2.session.total_inferences =
      st.session.total_inferences + 2 := by
  have hp1 := TTSEngine.synthesisProbe_miss ctx st r hc hm
  set st1 : TTSEngine.EngineState :=
    { st with cache := { st.cache with misses := st.cache.misses + 1 } } with hst1
  have hp2 := TTSEngine.synthesisProbe_miss ctx st1 r hc hm
  set st2 : TTSEngine.EngineState :=
    { st1 with cache := { st1.cache with misses := st1.cache.misses + 1 } } with hst2
  have hses1 := TTSEngine.synthesisCompute_session_ok ctx st2 r v s1 hv hl
  set st3 : TTSEngine.EngineState := (TTSEngine.synthesisCompute ctx st2 r (.ok s1)).2
    with hst3
  have hses2 := TTSEngine.synthesisCompute_session_ok ctx st3 r v s2
    (by rw [hses1.2]; exact hv) (by rw [hses1.1]; exact hl)
  unfold TTSEngine.interleavedPair
  simp only [hp1, hp2]
  rw [← hst3, hses2.1, hses1.1]

/-- C3 witness: the corrected claim at a concrete engine: starting from
zero recorded inferences, the interleaved pair ends with two. -/
theorem C3_witness :
    (TTSEngine.interleavedPair
      { stdHash := fun _ => 0, normalizeText := id, phonemize := fun _ => "",
        tokenize := fun _ => [], normalize_audio := false, target_sample_rate := 24000 }
      { cache := { max_size_bytes := 1000000 },
        session := { loaded := true },
        voices := { voices := [("u", { id := "u", name := "u", style_vector := [] })],
                    default_voice_id := "u" } }
      { text := "s", voice_id := "u", ipa_phonemes := some ("e"),
        use_cache := true, normalize_text := false }
      (.ok []) (.ok [])).2.2.session.total_inferences = 0 + 2 :=
  C3_theorem _ _ _ _ [] [] rfl rfl rfl rfl

-- ==========================================
-- Claim C10
-- ==========================================

/-- C10 (confirmed): over every operation sequence of the engine as
implemented — initialization, synchronous synthesis, the executed body
of asynchronous synthesis (which goes straight to the thread pool),
queue-processor iterations, voice loading, cache clearing, stopping —
the internal `request_queue` stays empty, `GetQueueSize` returns 0, and
a queue-processor iteration never dequeues anything (it leaves the
state unchanged).  Nothing in the sources ever pushes onto the queue:
`SubmitRequest` is declared in the header but has no implementation. -/
theorem C10_theorem (ctx : TTSEngine.EngineCtx) (max_cache_bytes : Nat)
    (ops : List TTSEngine.EngineOp) :
    (TTSEngine.runEngine ctx max_cache_bytes ops).request_queue = [] ∧
    TTSEngine.GetQueueSize (TTSEngine.runEngine ctx max_cache_bytes ops) = 0 ∧
    (∀ o, TTSEngine.engineStep ctx (TTSEngine.runEngine ctx max_cache_bytes ops)
      (.processQueueStep o) = TTSEngine.runEngine ctx max_cache_bytes ops) := by
  have step : ∀ (st : TTSEngine.EngineState) (op : TTSEngine.EngineOp),
      st.request_queue = [] → (TTSEngine.engineStep ctx st op).request_queue = [] := by
    intro st op h
    cases op with
    | initializeEngine ok => cases ok <;> simp [TTSEngine.engineStep, h]
    | synthesize r o =>
      simp only [TTSEngine.engineStep, TTSEngine.Synthesize]
      split
      · exact h
      · rw [TTSEngine.ProcessSynthesis_queue]
        exact h
    | synthesizeAsyncRun r o =>
      simp only [TTSEngine.engineStep]
      split
      · exact h
      · rw [TTSEngine.ProcessSynthesis_queue]
        exact h
    | processQueueStep o =>
      simp only [TTSEngine.engineStep]
      split
      · exact h
      · rw [h]
        exact h
    | loadVoice voice_id j => simpa [TTSEngine.engineStep] using h
    | clearCache => simpa [TTSEngine.engineStep, CacheManager.Clear] using h
    | stop => simpa [TTSEngine.engineStep] using h
  have hqueue : (TTSEngine.runEngine ctx max_cache_bytes ops).request_queue = [] := by
    unfold TTSEngine.runEngine
    have : ∀ (l : List TTSEngine.EngineOp) (st : TTSEngine.EngineState),
        st.request_queue = [] →
        (l.foldl (TTSEngine.engineStep ctx) st).request_queue = [] := by
      intro l
      induction l with
      | nil => intro st h; exact h
      | cons op rest ih =>
        intro st h
        exact ih _ (step st op h)
    exact this ops _ rfl
  refine ⟨hqueue, ?_, ?_⟩
  · unfold TTSEngine.GetQueueSize
    rw [hqueue]
    rfl
  · intro o
    simp only [TTSEngine.engineStep]
    split
    · rfl
    · rw [hqueue]

-- ==========================================
-- Claim C7
-- ==========================================

/-- C7 counterexample: with the repository's own test vocabulary
(BOS id 2, EOS id 3 — the tokenizer's defaults), the token sequence the
orchestrator passes to the inference session for the phoneme string
`"a k i"` is `[4, 9, 5]`: it neither begins with BOS nor ends with EOS,
and nothing in the synthesis path consults the model's declared inputs
to decide otherwise. -/
theorem C7_counterexample :
    TTSEngine.orchestratorTokens
      { stdHash := fun _ => 0, normalizeText := id, phonemize := fun _ => "",
        tokenize := IPATokenizer.PhonemesToTokens IPATokenizer.testVocab 1,
        normalize_audio := false, target_sample_rate := 24000 }
      { text := "ignored", voice_id := "v", ipa_phonemes := some ("a k i") } = [4, 9, 5] ∧
    ¬(([4, 9, 5] : List Int).head? = some 2 ∧ ([4, 9, 5] : List Int).getLast? = some 3) := by
  constructor
  · rfl
  · decide

/-- C7 (corrected): the token sequences the orchestrator passes to the
inference session carry no BOS/EOS framing — tokenization maps each
whitespace-separated phoneme to its vocabulary id (UNK when absent), so
a nonempty sequence begins with the id of its first phoneme and ends
with the id of its last phoneme. -/
theorem C7_theorem (vocab : List (String × Int)) (unk_id : Int) (s : String)
    (h : splitWhitespace s ≠ []) :
    (IPATokenizer.PhonemesToTokens vocab unk_id s).head? =
      some ((vocab.lookup ((splitWhitespace s).head h)).getD unk_id) ∧
    (IPATokenizer.PhonemesToTokens vocab unk_id s).getLast? =
      some ((vocab.lookup ((splitWhitespace s).getLast h)).getD unk_id) := by
  unfold IPATokenizer.PhonemesToTokens
  constructor
  · rw [List.head?_map, List.head?_eq_head h]
    rfl
  · rw [List.getLast?_map, List.getLast?_eq_getLast _ h]
    rfl

/-- C7 witness: the theorem evaluated on `"a k i"` over the test
vocabulary. -/
theorem C7_witness :
    (IPATokenizer.PhonemesToTokens IPATokenizer.testVocab 1 ("a k i")).head? = some 4 ∧
    (IPATokenizer.PhonemesToTokens IPATokenizer.testVocab 1 ("a k i")).getLast? = some 5 := by
  obtain ⟨h1, h2⟩ := C7_theorem IPATokenizer.testVocab 1 ("a k i") (by decide)
  exact ⟨by rw [h1]; decide, by rw [h2]; decide⟩

-- ==========================================
-- Claim C8
-- ==========================================

/-- C8 counterexample: a voice whose style vector has length 3 — which
differs from the acoustic model's declared style input length (128 for
the Kokoro graph the engine loads) — is accepted: the load returns
`Status::OK` and the voice is registered with its 3-element vector. -/
theorem C8_counterexample :
    (VoiceManager.LoadVoiceFromJSON {} "mismatched" { style := .arr [0, 0, 0] }).1 =
      Status.OK ∧
    (VoiceManager.GetVoice
        (VoiceManager.LoadVoiceFromJSON {} "mismatched" { style := .arr [0, 0, 0] }).2
        "mismatched").map (fun v => v.style_vector.length) = some 3 ∧
    (3 : Nat) ≠ 128 := by
  refine ⟨rfl, ?_, by decide⟩
  decide

/-- C8 (corrected): `LoadVoiceFromJSON` performs no validation of the
style-vector length against anything: for every registry state and
every style array of any length, loading returns `Status::OK` and
registers the voice with exactly that vector (a mismatch with the
model's style input surfaces only later, at inference time). -/
theorem C8_theorem (st : VoiceManager.VMState) (voice_id : String)
    (name language gender : Option String) (style : List ℚ)
    (ds dp : Option ℚ) (de pu : Option String) :
    (VoiceManager.LoadVoiceFromJSON st voice_id
        ⟨name, language, gender, .arr style, ds, dp, de, pu⟩).1 = Status.OK ∧
    (VoiceManager.GetVoice
        (VoiceManager.LoadVoiceFromJSON st voice_id
          ⟨name, language, gender, .arr style, ds, dp, de, pu⟩).2 voice_id).map
      (fun v => v.style_vector) = some style := by
  refine ⟨rfl, ?_⟩
  unfold VoiceManager.GetVoice VoiceManager.LoadVoiceFromJSON
  simp [VoiceManager.lookup_insertVoice]

end JpEdgeTts
